import Mathlib

/-!
Verification of the ordering and drag-and-drop reconciliation model of the
kanban repository (React client + Express/SQLite server), against its
natural-language specification.

Shallow embedding conventions:
* JavaScript `Array.prototype.sort` with the comparator
  `(a, b) => a.order_index - b.order_index` is a stable sort (ES2019); it is
  modelled by `sortBy`, a left-fold insertion sort that is stable for the
  same total preorder, hence produces the same list.
* JS `Array.prototype.splice(n, 0, x)` clamps `n` to the array length; it is
  modelled by `spliceIn`.
* dnd-kit drag identifiers are the strings `"proj-<id>"`, `"col-<id>"`,
  `"task-<id>"`; they are modelled by the tagged type `DragId` (the string
  prefix dispatch in `handleDragEnd` is prefix-exclusive, so the tagged type
  is equivalent for all well-formed identifiers).
* A `fetch` promise resolves for every HTTP response regardless of status and
  rejects only on network failure; outcome types below distinguish exactly
  resolution from rejection, and carry the response data where the code
  inspects it.
* SQL `ORDER BY` on the given keys is modelled as a stable sort on those
  keys; every property proved about relative key order holds for any
  SQL-compliant ordering.
-/

namespace Kanban

/-- Insert `x` into `l`, keeping `x` after every element `y` with `le y x`.
Building block of the stable insertion sort `sortBy`. -/
def insLe (le : α → α → Bool) (x : α) : List α → List α
  | [] => [x]
  | y :: ys => if le y x then y :: insLe le x ys else x :: y :: ys

/-- Stable sort modelling JS `Array.prototype.sort` for a total preorder
`le`: elements are inserted left to right, each after the equal elements
already placed, so ties keep their original relative order. -/
def sortBy (le : α → α → Bool) (l : List α) : List α :=
  l.foldl (fun acc x => insLe le x acc) []

/-- JS `arr.splice(n, 0, x)`: insert `x` at position `n`, clamped to the
length of the list. -/
def spliceIn (n : Nat) (x : α) : List α → List α
  | [] => [x]
  | y :: ys =>
    match n with
    | 0 => x :: y :: ys
    | Nat.succ m => y :: spliceIn m x ys

/-- SQL `MAX(order_index)`: `none` on an empty set of rows. -/
def maxOrderOpt (l : List Int) : Option Int :=
  l.foldl (fun acc x => match acc with | none => some x | some m => some (max m x)) none

/-! ## Client data model (src/store/taskStore.ts) -/

/-- The `Project` interface of the client store. -/
structure Project where
  id : Nat
  name : String
  description : Option String
  created_at : String
deriving Repr, DecidableEq

/-- The `Column` interface of the client store. -/
structure Column where
  id : Nat
  title : String
  order_index : Int
  project_id : Nat
  color : Option String
deriving Repr, DecidableEq

/-- The `Attachment` interface of the client store. -/
structure Attachment where
  id : Nat
  task_id : Nat
  file_name : String
  file_path : String
  file_type : String
  file_size : Nat
  created_at : String
deriving Repr, DecidableEq

/-- The `Task` interface of the client store.  `attachment_count` is optional in
the TypeScript interface, hence `Option`. -/
structure Task where
  id : Nat
  title : String
  description : String
  column_id : Nat
  priority : Int
  order_index : Int
  created_at : String
  attachment_count : Option Int
deriving Repr, DecidableEq

/-- An element of the `items` array sent to `POST /api/tasks/reorder`:
`{ id, order_index, column_id }`. -/
structure TaskEntry where
  id : Nat
  column_id : Nat
  order_index : Int
deriving Repr, DecidableEq

/-- An element of the `items` array sent to `POST /api/columns/reorder`:
`{ id, order_index }`. -/
structure ColEntry where
  id : Nat
  order_index : Int
deriving Repr, DecidableEq

/-! ## Drag reconciliation engine (src/pages/Home.tsx) -/

/-- Tagged drag identifier: models the `"proj-"`/`"col-"`/`"task-"` string
prefixes parsed by `handleDragStart`/`handleDragEnd`. -/
inductive DragId where
  | proj (id : Nat)
  | col (id : Nat)
  | task (id : Nat)
deriving Repr, DecidableEq

/-- The store call (network request + optimistic cache payload) emitted by
`handleDragEnd`; `none` means the gesture ended without any store call. -/
inductive DragAction where
  | reorderProjectsCall (ids : List Nat)
  | reorderColumnsCall (entries : List ColEntry) (optimistic : List Column)
  | reorderTasksCall (entries : List TaskEntry) (optimistic : List Task)
deriving Repr, DecidableEq

/-- dnd-kit `arrayMove`: remove the element at `i` and re-insert it at `j`
(single-element move, not a swap). -/
def arrayMove (l : List α) (i j : Nat) : List α :=
  match l.get? i with
  | none => l
  | some x => spliceIn j x (l.eraseIdx i)

/-- Filter `tasks.filter(t => t.column_id === c)`. -/
def tasksInColumn (tasks : List Task) (c : Nat) : List Task :=
  tasks.filter (fun t => t.column_id == c)

/-- Sort `.sort((a, b) => a.order_index - b.order_index)` on tasks. -/
def sortTasks (l : List Task) : List Task :=
  sortBy (fun a b => a.order_index ≤ b.order_index) l

/-- Target resolution of the Task branch of `handleDragEnd`
(src/pages/Home.tsx lines 316-338): yields the destination column id and the
insertion index, or `none` when the drop target does not resolve.
Dropping on a column appends (index = number of tasks currently in it);
dropping on a task targets that task's position within its column's list
sorted by `order_index`. -/
def resolveDrop (tasks : List Task) (over : DragId) : Option (Nat × Nat) :=
  match over with
  | .col c => some (c, (tasksInColumn tasks c).length)
  | .task o =>
    match tasks.find? (fun t => t.id == o) with
    | none => none
    | some overTask =>
      let c := overTask.column_id
      let sorted := sortTasks (tasksInColumn tasks c)
      some (c, sorted.findIdx (fun t => t.id == o))
  | .proj _ => none

/-- Map `(t, index) => ({ ...t, order_index: index })` over a task list, starting
at index `i`. -/
def assignIdxTask (i : Nat) : List Task → List Task
  | [] => []
  | t :: ts => { t with order_index := (i : Int) } :: assignIdxTask (i + 1) ts

/-- Map `(c, index) => ({ ...c, order_index: index })` over a column list. -/
def assignIdxCol (i : Nat) : List Column → List Column
  | [] => []
  | c :: cs => { c with order_index := (i : Int) } :: assignIdxCol (i + 1) cs

/-- Task branch of `handleDragEnd` (src/pages/Home.tsx lines 308-364): find
the dragged task, resolve the destination, build the destination column's
list excluding the dragged task sorted by `order_index`, splice the dragged
task (column reassigned) at the resolved index, assign dense indices, and
return the emitted reorder entries together with the optimistic full task
list (`otherTasks ++ updatedTargetTasks`). -/
def handleDragEndTask (tasks : List Task) (activeId : Nat) (over : DragId) :
    Option (List TaskEntry × List Task) :=
  match tasks.find? (fun t => t.id == activeId) with
  | none => none
  | some activeTask =>
    match resolveDrop tasks over with
    | none => none
    | some (c, newIndex) =>
      let targetTasks := sortTasks (tasks.filter (fun t => t.column_id == c && t.id != activeId))
      let spliced := spliceIn newIndex { activeTask with column_id := c } targetTasks
      let updatedTargetTasks := assignIdxTask 0 spliced
      let otherTasks := tasks.filter (fun t => t.column_id != c && t.id != activeId)
      let optimistic := otherTasks ++ updatedTargetTasks
      let updates := updatedTargetTasks.map (fun t => TaskEntry.mk t.id t.column_id t.order_index)
      some (updates, optimistic)

/-- Handler `handleDragEnd` (src/pages/Home.tsx lines 264-368), as the store call it
emits.  `over = none` (no drop target) ends the gesture with no call; the
Project and Column branches are guarded by `active.id !== over.id`; the Task
branch is entered for any dragged task whatever the target kind. -/
def handleDragEnd (projects : List Project) (columns : List Column) (tasks : List Task)
    (active : DragId) (over : Option DragId) : Option DragAction :=
  match over with
  | none => none
  | some overId =>
    match active, overId with
    | .proj a, .proj o =>
      if a == o then none
      else
        let oldIndex := projects.findIdx (fun p => p.id == a)
        let newIndex := projects.findIdx (fun p => p.id == o)
        some (.reorderProjectsCall ((arrayMove projects oldIndex newIndex).map (fun p => p.id)))
    | .col a, .col o =>
      if a == o then none
      else
        let oldIndex := columns.findIdx (fun c => c.id == a)
        let newIndex := columns.findIdx (fun c => c.id == o)
        let updatedColumns := assignIdxCol 0 (arrayMove columns oldIndex newIndex)
        some (.reorderColumnsCall (updatedColumns.map (fun c => ColEntry.mk c.id c.order_index))
          updatedColumns)
    | .task a, _ =>
      match handleDragEndTask tasks a overId with
      | none => none
      | some (updates, optimistic) => some (.reorderTasksCall updates optimistic)
    | _, _ => none

/-! ## Client ordering cache (src/store/taskStore.ts) -/

/-- The zustand store state slice touched by the modelled actions. -/
structure ClientState where
  projects : List Project
  currentProjectId : Option Nat
  tasks : List Task
  columns : List Column
  attachments : List (Nat × List Attachment)
  error : Option String
deriving Repr, DecidableEq

/-- Outcome of an awaited `fetch`: `resolved` for any HTTP response (the
reorder actions never inspect the response), `threw` for a network
rejection. -/
inductive FetchOutcome where
  | resolved
  | threw (msg : String)
deriving Repr, DecidableEq

/-- Fallback optimistic update of `reorderTasks` when no full optimistic
list is given: merge each entry's `order_index`/`column_id` into the
matching cached task. -/
def mergeReorderItems (tasks : List Task) (items : List TaskEntry) : List Task :=
  tasks.map (fun task =>
    match items.find? (fun i => i.id == task.id) with
    | some u => { task with order_index := u.order_index, column_id := u.column_id }
    | none => task)

/-- Store action `reorderTasks` of the store (taskStore lines 407-447): optimistic update,
then the persistence call with outcome `o`; returns the new state and
whether `fetchProjectData` (the reconciliation re-fetch) was invoked.  Both
the resolved path and the catch path re-fetch, provided a project is
selected. -/
def reorderTasks (st : ClientState) (items : List TaskEntry)
    (optimisticTasks : Option (List Task)) (o : FetchOutcome) : ClientState × Bool :=
  let st1 :=
    match optimisticTasks with
    | some ts => { st with tasks := ts }
    | none => { st with tasks := mergeReorderItems st.tasks items }
  match o with
  | .resolved => (st1, st1.currentProjectId.isSome)
  | .threw _ => (st1, st1.currentProjectId.isSome)

/-- Store action `reorderColumns` of the store (taskStore lines 520-540): optimistic
update when a full list is given, then the persistence call; the catch path
alone re-fetches (the resolved path performs no re-fetch). -/
def reorderColumns (st : ClientState) (items : List ColEntry)
    (optimisticColumns : Option (List Column)) (o : FetchOutcome) : ClientState × Bool :=
  let st1 :=
    match optimisticColumns with
    | some cs => { st with columns := cs }
    | none => st
  match o with
  | .resolved => (st1, false)
  | .threw _ => (st1, st1.currentProjectId.isSome)

/-- Outcome of an awaited `fetch` whose JSON body is inspected: the server
answered `success: true`, answered `success: false` with an error message,
or the promise rejected. -/
inductive RespOutcome where
  | ok
  | fail (err : String)
  | threw (msg : String)
deriving Repr, DecidableEq

/-- The `Partial<Task>` argument of `updateTask`: present fields overwrite. -/
structure TaskUpdates where
  title : Option String
  description : Option String
  column_id : Option Nat
  priority : Option Int
  order_index : Option Int
deriving Repr, DecidableEq

/-- Merge `{ ...t, ...updates }`. -/
def applyTaskUpdates (t : Task) (u : TaskUpdates) : Task :=
  { t with
    title := u.title.getD t.title
    description := u.description.getD t.description
    column_id := u.column_id.getD t.column_id
    priority := u.priority.getD t.priority
    order_index := u.order_index.getD t.order_index }

/-- Store action `updateTask` of the store (taskStore lines 380-405): capture
`previousTasks`, apply the optimistic merge, then on `success: false` or a
thrown fetch restore the captured list and record the error. -/
def updateTask (st : ClientState) (id : Nat) (u : TaskUpdates) (o : RespOutcome) : ClientState :=
  let optimistic := st.tasks.map (fun t => if t.id == id then applyTaskUpdates t u else t)
  match o with
  | .ok => { st with tasks := optimistic }
  | .fail e => { st with tasks := st.tasks, error := some e }
  | .threw m => { st with tasks := st.tasks, error := some m }

/-- Outcome of the attachment `DELETE` fetch: `resolved status` for any HTTP
response (the code never reads the response), `threw` for a network
rejection. -/
inductive DeleteOutcome where
  | resolved (status : Nat)
  | threw (msg : String)
deriving Repr, DecidableEq

/-- Read `state.attachments[taskId]`, defaulting to `[]` as in
`(state.attachments[taskId] || [])`. -/
def lookupAttachments (m : List (Nat × List Attachment)) (taskId : Nat) : List Attachment :=
  match m.find? (fun p => p.1 == taskId) with
  | some p => p.2
  | none => []

/-- Write `{ ...state.attachments, [taskId]: v }`. -/
def setAttachments (m : List (Nat × List Attachment)) (taskId : Nat) (v : List Attachment) :
    List (Nat × List Attachment) :=
  if m.any (fun p => p.1 == taskId) then
    m.map (fun p => if p.1 == taskId then (p.1, v) else p)
  else
    m ++ [(taskId, v)]

/-- Store action `deleteAttachment` of the store (taskStore lines 143-163): await the
DELETE fetch without reading its response, then unconditionally drop the
attachment from the task's cached list and decrement the task's
`attachment_count` as `Math.max((count || 0) - 1, 0)`.  Only a thrown fetch
skips the mutation (and records the error). -/
def deleteAttachment (st : ClientState) (id : Nat) (taskId : Nat) (o : DeleteOutcome) :
    ClientState :=
  match o with
  | .resolved _ =>
    { st with
      attachments := setAttachments st.attachments taskId
        ((lookupAttachments st.attachments taskId).filter (fun a => a.id != id))
      tasks := st.tasks.map (fun t =>
        if t.id == taskId then
          { t with attachment_count := some (max ((t.attachment_count.getD 0) - 1) 0) }
        else t) }
  | .threw m => { st with error := some m }

/-! ## Server: durable rows and routes (api/routes, schema.sql) -/

/-- A row of the `tasks` table.  `priority` is `Option` because SQLite
stores NULL when the request supplies an explicit `null` (the CHECK
constraint passes on NULL); `created_at` is the insertion timestamp. -/
structure TaskRow where
  id : Nat
  title : String
  description : String
  column_id : Nat
  priority : Option Int
  order_index : Int
  created_at : Nat
deriving Repr, DecidableEq

/-- A row of the `columns` table. -/
structure ColumnRow where
  id : Nat
  title : String
  order_index : Int
  project_id : Nat
  color : String
deriving Repr, DecidableEq

/-- A row of the `projects` table. -/
structure ProjectRow where
  id : Nat
  name : String
  description : String
  user_id : Nat
  order_index : Int
  created_at : Nat
deriving Repr, DecidableEq

/-- Express route response: `res.json({success: true, ...})` or
`res.status(400).json({success: false, error})`. -/
inductive Resp where
  | success
  | error (err : String)
deriving Repr, DecidableEq

/-- Effect of `UPDATE tasks SET order_index = ?, column_id = ? WHERE id = ?`
on one row. -/
def applyEntryRow (r : TaskRow) (e : TaskEntry) : TaskRow :=
  if r.id == e.id then { r with order_index := e.order_index, column_id := e.column_id } else r

/-- One `UPDATE tasks SET order_index = ?, column_id = ? WHERE id = ?`:
every row whose id matches is updated; a nonexistent id changes zero
rows. -/
def applyTaskEntry (rows : List TaskRow) (e : TaskEntry) : List TaskRow :=
  rows.map (fun r => applyEntryRow r e)

/-- Route `POST /api/tasks/reorder` (api/routes/tasks.ts lines 122-144) with the
per-row updates infallible: validate that `items` is an array, then run every
update inside one transaction and answer success. -/
def tasksReorder (rows : List TaskRow) (items : Option (List TaskEntry)) :
    Resp × List TaskRow :=
  match items with
  | none => (.error "Items array is required", rows)
  | some its => (.success, its.foldl applyTaskEntry rows)

/-- Effect of `UPDATE columns SET order_index = ? WHERE id = ?` on one
row. -/
def applyColEntryRow (r : ColumnRow) (e : ColEntry) : ColumnRow :=
  if r.id == e.id then { r with order_index := e.order_index } else r

/-- One `UPDATE columns SET order_index = ? WHERE id = ?`: every row whose
id matches is updated; a nonexistent id changes zero rows. -/
def applyColEntry (rows : List ColumnRow) (e : ColEntry) : List ColumnRow :=
  rows.map (fun r => applyColEntryRow r e)

/-- Route `POST /api/columns/reorder` (columns route lines 97-119) with the
per-row updates infallible. -/
def columnsReorder (rows : List ColumnRow) (items : Option (List ColEntry)) :
    Resp × List ColumnRow :=
  match items with
  | none => (.error "Items array is required", rows)
  | some its => (.success, its.foldl applyColEntry rows)

/-- Modelled from the spec: better-sqlite3's `db.transaction(fn)` wrapper
used by both reorder routes — the library's BEGIN/COMMIT/ROLLBACK
implementation is not part of this repository.  The per-entry updates run in
order; if any raises, every update already applied in the batch is rolled
back and the error propagates to the route's catch, which answers 400 with
the store unchanged; otherwise the batch commits and the route answers
success. -/
def reorderTx (step : List ρ → ε → Except String (List ρ)) (rows : List ρ) (items : List ε) :
    Resp × List ρ :=
  match items.foldlM step rows with
  | .ok rows' => (.success, rows')
  | .error e => (.error e, rows)

/-- The `lastInsertRowid` of an append-only rows list: one more than the largest
existing id. -/
def nextRowId (ids : List Nat) : Nat :=
  ids.foldl max 0 + 1

/-- The `priority` field of a task-creation request body: absent (JS
`undefined`, triggering the destructuring default `priority = 3`), JSON
`null` (which survives the default), or a number. -/
inductive PriorityField where
  | absent
  | null
  | num (n : Int)
deriving Repr, DecidableEq

/-- Value bound into the INSERT: `const { priority = 3 } = req.body` —
the default applies only when the field is `undefined`. -/
def priorityValue : PriorityField → Option Int
  | .absent => some 3
  | .null => none
  | .num n => some n

/-- SQLite `CHECK(priority BETWEEN 1 AND 5)`: a NULL value satisfies the
constraint (the CHECK expression evaluates to NULL, which is not a
violation); a number must lie in 1..5. -/
def priorityCheckOk : Option Int → Bool
  | none => true
  | some n => 1 ≤ n && n ≤ 5

/-- Body of `POST /api/tasks`.  `column_id` is `Option` to model a missing
field (JS falsiness; ids are positive, so `!column_id` means absent). -/
structure TaskCreateReq where
  title : String
  description : Option String
  column_id : Option Nat
  priority : PriorityField
deriving Repr, DecidableEq

/-- Route `POST /api/tasks` (api/routes/tasks.ts lines 38-69): reject a missing
title or column, count the column's existing tasks, and INSERT the new task
with `order_index = count` (append to end); the INSERT throws when the
priority CHECK fails, answering 400 with no row stored. -/
def createTask (rows : List TaskRow) (req : TaskCreateReq) (now : Nat) :
    Resp × List TaskRow :=
  match req.column_id with
  | none => (.error "Title and column_id are required", rows)
  | some cid =>
    if req.title = "" then (.error "Title and column_id are required", rows)
    else
      let count : Int := ((rows.filter (fun r => r.column_id == cid)).length : Int)
      let prio := priorityValue req.priority
      if priorityCheckOk prio then
        (.success,
          rows ++ [⟨nextRowId (rows.map (fun r => r.id)), req.title, req.description.getD "",
            cid, prio, count, now⟩])
      else
        (.error "CHECK constraint failed: priority", rows)

/-- Route `POST /api/columns` (columns route lines 28-56): count the project's
existing columns and INSERT with `order_index = count`; `color` defaults to
`'#f59e0b'`. -/
def createColumn (rows : List ColumnRow) (title : String) (project_id : Option Nat)
    (color : Option String) : Resp × List ColumnRow :=
  match project_id with
  | none => (.error "Title and project_id are required", rows)
  | some pid =>
    if title = "" then (.error "Title and project_id are required", rows)
    else
      let count : Int := ((rows.filter (fun r => r.project_id == pid)).length : Int)
      (.success,
        rows ++ [⟨nextRowId (rows.map (fun r => r.id)), title, count, pid,
          color.getD "#f59e0b"⟩])

/-- Query `SELECT MAX(order_index) ...` then `(max_order ?? -1) + 1` of
`POST /api/projects`. -/
def projectNextOrder (rows : List ProjectRow) (userId : Nat) : Int :=
  match maxOrderOpt ((rows.filter (fun r => r.user_id == userId)).map (fun r => r.order_index)) with
  | some m => m + 1
  | none => 0

/-- Route `POST /api/projects` (projects route lines 166-204): reject a missing
name, INSERT the project with `order_index = MAX(existing order_index)+1`
(0 when the user has none), then auto-seed the three default columns with
indices 0, 1, 2. -/
def createProject (projects : List ProjectRow) (columns : List ColumnRow) (userId : Nat)
    (name : String) (description : Option String) (now : Nat) :
    Resp × List ProjectRow × List ColumnRow :=
  if name = "" then
    (.error "Name is required", projects, columns)
  else
    let nextOrder := projectNextOrder projects userId
    let pid := nextRowId (projects.map (fun r => r.id))
    let c1 := nextRowId (columns.map (fun r => r.id))
    (.success,
      projects ++ [⟨pid, name, description.getD "", userId, nextOrder, now⟩],
      columns ++ [⟨c1, "待办", 0, pid, "#f59e0b"⟩, ⟨c1 + 1, "进行中", 1, pid, "#f59e0b"⟩,
        ⟨c1 + 2, "已完成", 2, pid, "#f59e0b"⟩])

/-- Comparator of `GET /api/tasks`: `ORDER BY order_index ASC,
created_at DESC`. -/
def taskRowLe (a b : TaskRow) : Bool :=
  a.order_index < b.order_index || (a.order_index == b.order_index && b.created_at ≤ a.created_at)

/-- Comparator of `GET /api/projects`: `ORDER BY order_index ASC,
created_at ASC`. -/
def projRowLe (a b : ProjectRow) : Bool :=
  a.order_index < b.order_index || (a.order_index == b.order_index && a.created_at ≤ b.created_at)

/-- Comparator of `GET /api/columns`: `ORDER BY order_index` alone. -/
def colRowLe (a b : ColumnRow) : Bool :=
  a.order_index ≤ b.order_index

/-- Route `GET /api/tasks` (api/routes/tasks.ts lines 12-35): optionally join
columns to filter by project, then order by `order_index ASC,
created_at DESC`.  (The `attachment_count` projection of the SELECT is
omitted: it does not affect membership or order.) -/
def listTasks (rows : List TaskRow) (cols : List ColumnRow) (project_id : Option Nat) :
    List TaskRow :=
  let base :=
    match project_id with
    | some pid =>
      rows.filter (fun t =>
        match cols.find? (fun c => c.id == t.column_id) with
        | some c => c.project_id == pid
        | none => false)
    | none => rows
  sortBy taskRowLe base

/-- Route `GET /api/projects` (projects route lines 151-163). -/
def listProjects (rows : List ProjectRow) (userId : Nat) : List ProjectRow :=
  sortBy projRowLe (rows.filter (fun r => r.user_id == userId))

/-- Route `GET /api/columns` (columns route lines 7-25). -/
def listColumns (rows : List ColumnRow) (project_id : Nat) : List ColumnRow :=
  sortBy colRowLe (rows.filter (fun r => r.project_id == project_id))

/-! ## Concrete fixtures used by witnesses and counterexamples -/

/-- Task T1 at index 0 of column A (= 10). -/
def exT1 : Task := ⟨1, "T1", "", 10, 3, 0, "", none⟩

/-- Task T2 at index 1 of column A (= 10). -/
def exT2 : Task := ⟨2, "T2", "", 10, 3, 1, "", none⟩

/-- Task T3 at index 0 of column B (= 20). -/
def exT3 : Task := ⟨3, "T3", "", 20, 3, 0, "", none⟩

/-- Column A = [T1, T2], column B = [T3]. -/
def exTasks : List Task := [exT1, exT2, exT3]

/-- Two tasks in column 1, for the self-drop counterexample. -/
def selfDropTasks : List Task := [⟨1, "a", "", 1, 3, 0, "", none⟩, ⟨2, "b", "", 1, 3, 1, "", none⟩]

/-- A client state with project 1 selected, for the reorder re-fetch claims. -/
def exClientState : ClientState :=
  { projects := [⟨1, "p", none, ""⟩]
    currentProjectId := some 1
    tasks := [⟨7, "t", "", 5, 3, 0, "", some 0⟩]
    columns := [⟨5, "c", 0, 1, none⟩]
    attachments := [(7, [⟨9, 7, "f", "p", "", 1, ""⟩])]
    error := none }

/-- Task rows with ids 1 and 2 in column 40, for the batch-reorder claims. -/
def exRows : List TaskRow := [⟨1, "a", "", 40, some 3, 0, 0⟩, ⟨2, "b", "", 40, some 3, 1, 0⟩]

/-- A reorder batch whose middle entry references the nonexistent id 99. -/
def exItems : List TaskEntry := [⟨1, 40, 0⟩, ⟨99, 40, 1⟩, ⟨2, 40, 2⟩]

/-- Column rows with ids 1 and 2 in project 7, for the batch-reorder
claims. -/
def exColRows : List ColumnRow := [⟨1, "a", 0, 7, "#f59e0b"⟩, ⟨2, "b", 1, 7, "#f59e0b"⟩]

/-- A column reorder batch whose middle entry references the nonexistent
id 99. -/
def exColItems : List ColEntry := [⟨1, 0⟩, ⟨99, 1⟩, ⟨2, 2⟩]

/-- A per-entry update that raises on the entry with id 99 and otherwise
runs the ordinary row update, modelling a constraint violation midway
through a batch. -/
def exFailStep (rows : List TaskRow) (e : TaskEntry) : Except String (List TaskRow) :=
  if e.id == 99 then .error "boom" else .ok (applyTaskEntry rows e)

/-- One project row with a gap: `order_index = 5`. -/
def exProjRows : List ProjectRow := [⟨1, "p", "", 1, 5, 0⟩]

/-- Two task rows tied on `order_index = 0` with creation times 10 and 20. -/
def exTieRows : List TaskRow := [⟨1, "a", "", 1, some 3, 0, 10⟩, ⟨2, "b", "", 1, some 3, 0, 20⟩]

/-- The reorder entries emitted for the claim C1 example drop (T1 onto T3). -/
def c1ExUpdates : List TaskEntry := [⟨1, 20, 0⟩, ⟨3, 20, 1⟩]

/-- The optimistic task list for the claim C1 example drop: T2 untouched at
index 1 of column A, then the re-densified column B = [T1, T3]. -/
def c1ExOpt : List Task :=
  [exT2, { exT1 with column_id := 20, order_index := 0 }, { exT3 with order_index := 1 }]

/-! ## Shared list lemmas -/

theorem insLe_perm (le : α → α → Bool) (x : α) (l : List α) : (insLe le x l).Perm (x :: l) := by
  induction l with
  | nil => exact List.Perm.refl _
  | cons y ys ih =>
    cases hc : le y x with
    | false => simp [insLe, hc]
    | true =>
      simp only [insLe, hc, if_true]
      exact (ih.cons y).trans (List.Perm.swap x y ys)

theorem sortBy_perm (le : α → α → Bool) (l : List α) : (sortBy le l).Perm l := by
  suffices h : ∀ acc : List α, (l.foldl (fun a x => insLe le x a) acc).Perm (acc ++ l) by
    simpa [sortBy] using h []
  induction l with
  | nil => intro acc; simp
  | cons x xs ih =>
    intro acc
    simp only [List.foldl_cons]
    refine (ih (insLe le x acc)).trans ?_
    refine (List.Perm.append_right xs (insLe_perm le x acc)).trans ?_
    exact List.perm_middle.symm

theorem sortBy_length (le : α → α → Bool) (l : List α) : (sortBy le l).length = l.length :=
  (sortBy_perm le l).length_eq

theorem sortBy_mem (le : α → α → Bool) (l : List α) (x : α) : x ∈ sortBy le l ↔ x ∈ l :=
  (sortBy_perm le l).mem_iff

theorem pairwise_insLe (le : α → α → Bool)
    (htrans : ∀ a b c, le a b = true → le b c = true → le a c = true)
    (htotal : ∀ a b, le a b = true ∨ le b a = true)
    (x : α) (l : List α) (h : l.Pairwise (fun a b => le a b = true)) :
    (insLe le x l).Pairwise (fun a b => le a b = true) := by
  induction l with
  | nil => simp [insLe]
  | cons y ys ih =>
    rcases List.pairwise_cons.mp h with ⟨hy, hys⟩
    cases hc : le y x with
    | true =>
      simp only [insLe, hc, if_true]
      refine List.pairwise_cons.mpr ⟨?_, ih hys⟩
      intro z hz
      rcases List.mem_cons.mp ((insLe_perm le x ys).mem_iff.mp hz) with rfl | hz'
      · exact hc
      · exact hy z hz'
    | false =>
      simp only [insLe, hc, Bool.false_eq_true, if_false]
      have hxy : le x y = true := (htotal x y).resolve_right (by simp [hc])
      refine List.pairwise_cons.mpr ⟨?_, h⟩
      intro z hz
      rcases List.mem_cons.mp hz with rfl | hz'
      · exact hxy
      · exact htrans x y z hxy (hy z hz')

theorem pairwise_sortBy (le : α → α → Bool)
    (htrans : ∀ a b c, le a b = true → le b c = true → le a c = true)
    (htotal : ∀ a b, le a b = true ∨ le b a = true) (l : List α) :
    (sortBy le l).Pairwise (fun a b => le a b = true) := by
  suffices h : ∀ acc : List α, acc.Pairwise (fun a b => le a b = true) →
      (l.foldl (fun a x => insLe le x a) acc).Pairwise (fun a b => le a b = true) by
    simpa [sortBy] using h [] (by simp)
  induction l with
  | nil => intro acc hacc; simpa using hacc
  | cons x xs ih =>
    intro acc hacc
    simp only [List.foldl_cons]
    exact ih _ (pairwise_insLe le htrans htotal x acc hacc)

theorem spliceIn_perm (n : Nat) (x : α) (l : List α) : (spliceIn n x l).Perm (x :: l) := by
  induction l generalizing n with
  | nil => simp [spliceIn]
  | cons y ys ih =>
    cases n with
    | zero => simp [spliceIn]
    | succ m =>
      simp only [spliceIn]
      exact ((ih m).cons y).trans (List.Perm.swap x y ys)

theorem map_spliceIn (f : α → β) (n : Nat) (x : α) (l : List α) :
    (spliceIn n x l).map f = spliceIn n (f x) (l.map f) := by
  induction l generalizing n with
  | nil => simp [spliceIn]
  | cons y ys ih =>
    cases n with
    | zero => simp [spliceIn]
    | succ m => simp [spliceIn, ih]

theorem spliceIn_get (n : Nat) (x : α) (l : List α) :
    (spliceIn n x l).get? (min n l.length) = some x := by
  induction l generalizing n with
  | nil => simp [spliceIn]
  | cons y ys ih =>
    cases n with
    | zero => simp [spliceIn]
    | succ m =>
      simp only [spliceIn, List.length_cons, Nat.succ_min_succ]
      simpa using ih m

theorem assignIdxTask_map_id (i : Nat) (l : List Task) :
    (assignIdxTask i l).map Task.id = l.map Task.id := by
  induction l generalizing i with
  | nil => rfl
  | cons t ts ih => simp [assignIdxTask, ih]

theorem assignIdxTask_map_order (i : Nat) (l : List Task) :
    (assignIdxTask i l).map Task.order_index = (List.range' i l.length).map Int.ofNat := by
  induction l generalizing i with
  | nil => rfl
  | cons t ts ih => simp [assignIdxTask, ih, List.range'_succ]

theorem assignIdxTask_length (i : Nat) (l : List Task) :
    (assignIdxTask i l).length = l.length := by
  induction l generalizing i with
  | nil => rfl
  | cons t ts ih => simp [assignIdxTask, ih]

theorem assignIdxTask_mem (i : Nat) (l : List Task) (t : Task) (h : t ∈ assignIdxTask i l) :
    ∃ s ∈ l, t.id = s.id ∧ t.column_id = s.column_id := by
  induction l generalizing i with
  | nil => cases h
  | cons s ss ih =>
    rcases List.mem_cons.mp h with rfl | h'
    · exact ⟨s, List.mem_cons_self s ss, rfl, rfl⟩
    · obtain ⟨s', hs', h1, h2⟩ := ih (i + 1) h'
      exact ⟨s', List.mem_cons_of_mem s hs', h1, h2⟩

theorem map_entry_id (l : List Task) :
    (l.map (fun t => TaskEntry.mk t.id t.column_id t.order_index)).map TaskEntry.id
      = l.map Task.id := by
  simp [Function.comp]

theorem map_entry_order (l : List Task) :
    (l.map (fun t => TaskEntry.mk t.id t.column_id t.order_index)).map TaskEntry.order_index
      = l.map Task.order_index := by
  simp [Function.comp]

/-! ## Claim theorems -/

/-- Claim C1: for every drag of a task onto a resolvable target, the engine
builds the destination column's task list excluding the dragged task sorted
by current order_index, splices the dragged task (column reassigned to the
destination) at the computed position, assigns dense order_index 0..N-1 to
that list, emits exactly one reorder entry per destination-list task (the
dragged task plus the destination's previous tasks), and leaves every task
outside the destination column other than the dragged one in the optimistic
set unchanged (the origin column is not re-densified). -/
theorem c1_cross_column_move (tasks : List Task) (activeId : Nat) (over : DragId)
    (c : Nat) (i : Nat) (updates : List TaskEntry) (optimistic : List Task)
    (hres : resolveDrop tasks over = some (c, i))
    (h : handleDragEndTask tasks activeId over = some (updates, optimistic)) :
    updates.map TaskEntry.order_index = (List.range updates.length).map Int.ofNat
    ∧ (∀ e ∈ updates, e.column_id = c)
    ∧ (updates.map TaskEntry.id).Perm
        (activeId :: (tasks.filter (fun t => t.column_id == c && t.id != activeId)).map Task.id)
    ∧ (updates.map TaskEntry.id).get?
        (min i (tasks.filter (fun t => t.column_id == c && t.id != activeId)).length)
        = some activeId
    ∧ (∀ t ∈ tasks, t.column_id ≠ c → t.id ≠ activeId → t ∈ optimistic)
    ∧ (∀ t ∈ optimistic, t.column_id ≠ c → t ∈ tasks) := by
  cases hfind : tasks.find? (fun t => t.id == activeId) with
  | none => simp [handleDragEndTask, hfind] at h
  | some aT =>
    have haid : aT.id = activeId := by
      have := List.find?_some hfind
      simpa using this
    simp only [handleDragEndTask, hfind, hres, Option.some.injEq, Prod.mk.injEq] at h
    obtain ⟨hu, ho⟩ := h
    subst hu ho
    refine ⟨?_, ?_, ?_, ?_, ?_, ?_⟩
    · -- dense 0..N-1
      rw [map_entry_order, assignIdxTask_map_order]
      simp [List.length_map, assignIdxTask_length, List.range_eq_range']
    · -- every entry targets the destination column
      intro e he
      rcases List.mem_map.mp he with ⟨t, ht, rfl⟩
      obtain ⟨s, hs, _, hcol⟩ := assignIdxTask_mem 0 _ t ht
      rcases List.mem_cons.mp ((spliceIn_perm i _ _).mem_iff.mp hs) with rfl | hs'
      · simpa using hcol
      · have := (List.mem_filter.mp ((sortBy_mem _ _ s).mp hs')).2
        simp only [Bool.and_eq_true, beq_iff_eq] at this
        simpa [hcol] using this.1
    · -- exactly one entry per destination-list task
      rw [map_entry_id, assignIdxTask_map_id]
      refine ((spliceIn_perm i _ _).map Task.id).trans ?_
      rw [List.map_cons]
      have : ({ aT with column_id := c } : Task).id = activeId := haid
      rw [this]
      exact ((sortBy_perm _ _).map Task.id).cons activeId
    · -- the dragged task sits at the computed position
      rw [map_entry_id, assignIdxTask_map_id, map_spliceIn]
      have hlen : ((sortTasks (tasks.filter (fun t => t.column_id == c && t.id != activeId))).map
          Task.id).length
          = (tasks.filter (fun t => t.column_id == c && t.id != activeId)).length := by
        simp [sortTasks, sortBy_length]
      have hid : ({ aT with column_id := c } : Task).id = activeId := haid
      rw [← hlen, ← hid]
      exact spliceIn_get i _ _
    · -- tasks outside the destination stay in the optimistic set unchanged
      intro t ht hcol hid
      refine List.mem_append_left _ (List.mem_filter.mpr ⟨ht, ?_⟩)
      simp [hcol, hid]
    · -- the optimistic set adds nothing outside the destination
      intro t ht hcol
      rcases List.mem_append.mp ht with h' | h'
      · exact (List.mem_filter.mp h').1
      · obtain ⟨s, hs, _, hceq⟩ := assignIdxTask_mem 0 _ t h'
        rcases List.mem_cons.mp ((spliceIn_perm i _ _).mem_iff.mp hs) with rfl | hs'
        · exact absurd hceq (by simpa using hcol)
        · have := (List.mem_filter.mp ((sortBy_mem _ _ s).mp hs')).2
          simp only [Bool.and_eq_true, beq_iff_eq] at this
          exact absurd (hceq.trans this.1) hcol

/-- Witness for claim C1: the spec's concrete example.  Column A (= 10) is
[T1(idx 0), T2(idx 1)], column B (= 20) is [T3(idx 0)]; dropping T1 onto T3
resolves to position 0 of column B, emits exactly
[{1, B, 0}, {3, B, 1}], and leaves T2 in the optimistic list with its old
index 1. -/
theorem c1_cross_column_move_witness :
    resolveDrop exTasks (.task 3) = some (20, 0)
    ∧ handleDragEndTask exTasks 1 (.task 3) = some (c1ExUpdates, c1ExOpt)
    ∧ exT2 ∈ c1ExOpt
    ∧ (∀ e ∈ c1ExUpdates, e.column_id = 20) :=
  ⟨by decide, by decide, by decide,
    (c1_cross_column_move exTasks 1 (.task 3) 20 0 c1ExUpdates c1ExOpt
      (by decide) (by decide)).2.1⟩

/-- Counterexample to claim C2: with project 1 selected, a column reorder
whose persistence call resolves (success) triggers no re-fetch at all — the
claim asserted an unconditional re-fetch after every task or column reorder
call. -/
theorem c2_refetch_counterexample :
    (reorderColumns exClientState [⟨5, 0⟩] (some [⟨5, "c", 0, 1, none⟩]) .resolved).2 = false
    ∧ exClientState.currentProjectId.isSome = true := by
  decide

/-- Claim C2 (amended): once a task reorder's persistence call completes —
resolved or thrown — the cache re-fetches the current project's Columns and
Tasks, provided a project is selected; a column reorder re-fetches only when
the call throws, and a successfully resolved column reorder performs no
re-fetch (keeping the optimistic state). -/
theorem c2_reconcile_after_reorder (st : ClientState) (tItems : List TaskEntry)
    (tOpt : Option (List Task)) (cItems : List ColEntry) (cOpt : Option (List Column))
    (o : FetchOutcome) :
    (reorderTasks st tItems tOpt o).2 = st.currentProjectId.isSome
    ∧ (reorderColumns st cItems cOpt o).2
        = (match o with
           | .resolved => false
           | .threw _ => st.currentProjectId.isSome) := by
  cases o <;> cases tOpt <;> cases cOpt <;> simp [reorderTasks, reorderColumns]

/-- Counterexample to claim C3: dropping task 1 onto itself (source id equals
target id) is not a no-op — the Task branch of `handleDragEnd` has no
self-drop guard, so it emits a reorder entry for every task of the
destination column and invokes the persistence call. -/
theorem c3_self_drop_counterexample :
    handleDragEnd [] [] selfDropTasks (.task 1) (some (.task 1))
      = some (.reorderTasksCall [⟨1, 1, 0⟩, ⟨2, 1, 1⟩]
          [⟨1, "a", "", 1, 3, 0, "", none⟩, ⟨2, "b", "", 1, 3, 1, "", none⟩])
    ∧ ([⟨1, 1, 0⟩, ⟨2, 1, 1⟩] : List TaskEntry) ≠ [] := by
  decide

/-- Claim C3 (amended): a drop on oneself is a no-op — zero reorder entries,
no network call, no cache mutation — for Project and Column drags (their
branches are guarded by `active.id !== over.id`); a Task dropped on itself
instead emits a reorder batch covering its whole destination column and
invokes the persistence call (though the relative order is unchanged). -/
theorem c3_self_drop_noop (projects : List Project) (columns : List Column)
    (tasks : List Task) (a : Nat) :
    handleDragEnd projects columns tasks (.proj a) (some (.proj a)) = none
    ∧ handleDragEnd projects columns tasks (.col a) (some (.col a)) = none := by
  simp [handleDragEnd]

theorem foldl_applyTaskEntry_pointwise (items : List TaskEntry) (rows : List TaskRow) :
    items.foldl applyTaskEntry rows = rows.map (fun r => items.foldl applyEntryRow r) := by
  induction items generalizing rows with
  | nil => simp
  | cons e es ih =>
    simp only [List.foldl_cons, ih, applyTaskEntry, List.map_map]
    rfl

theorem applyEntryRow_id (r : TaskRow) (e : TaskEntry) : (applyEntryRow r e).id = r.id := by
  unfold applyEntryRow
  split <;> rfl

theorem row_fold_id (items : List TaskEntry) (r : TaskRow) :
    (items.foldl applyEntryRow r).id = r.id := by
  induction items generalizing r with
  | nil => rfl
  | cons e es ih => simp [List.foldl_cons, ih, applyEntryRow_id]

theorem row_fold_untouched (items : List TaskEntry) (r : TaskRow)
    (h : ∀ e ∈ items, e.id ≠ r.id) :
    items.foldl applyEntryRow r = r := by
  induction items with
  | nil => rfl
  | cons e es ih =>
    have he : applyEntryRow r e = r := by
      unfold applyEntryRow
      have : ¬ r.id = e.id := fun hr => h e (List.mem_cons_self e es) hr.symm
      simp [this]
    simp only [List.foldl_cons, he]
    exact ih (fun e' he' => h e' (List.mem_cons_of_mem e he'))

theorem map_eq_self_of (l : List α) (f : α → α) (h : ∀ a ∈ l, f a = a) : l.map f = l := by
  induction l with
  | nil => rfl
  | cons x xs ih =>
    simp only [List.map_cons, h x (List.mem_cons_self x xs)]
    rw [ih (fun a ha => h a (List.mem_cons_of_mem x ha))]

theorem row_fold_applied (items : List TaskEntry) (e : TaskEntry) (r : TaskRow)
    (hnodup : (items.map TaskEntry.id).Nodup) (hmem : e ∈ items) (hid : r.id = e.id) :
    items.foldl applyEntryRow r
      = { r with order_index := e.order_index, column_id := e.column_id } := by
  induction items generalizing r with
  | nil => cases hmem
  | cons x xs ih =>
    have hn := hnodup
    simp only [List.map_cons, List.nodup_cons, List.mem_map, not_exists, not_and] at hn
    rcases List.mem_cons.mp hmem with rfl | hmem'
    · have hx : applyEntryRow r e
          = { r with order_index := e.order_index, column_id := e.column_id } := by
        unfold applyEntryRow
        simp [hid]
      simp only [List.foldl_cons, hx]
      refine row_fold_untouched xs _ ?_
      intro e' he' hcontra
      have h1 : e'.id = e.id := by simpa [hid] using hcontra
      exact hn.1 e' he' h1
    · have hx : applyEntryRow r x = r := by
        unfold applyEntryRow
        have hne : ¬ r.id = x.id := by
          intro hr
          exact hn.1 e hmem' (hid ▸ hr)
        simp [hne]
      simp only [List.foldl_cons, hx]
      exact ih r hn.2 hmem' hid

theorem foldlM_ok {α β : Type} (f : β → α → β) (l : List α) (b : β) :
    l.foldlM (fun x y => (Except.ok (f x y) : Except String β)) b = .ok (l.foldl f b) := by
  induction l generalizing b with
  | nil => rfl
  | cons x xs ih =>
    simp only [List.foldlM_cons, ih]
    rfl

theorem foldl_applyColEntry_pointwise (items : List ColEntry) (rows : List ColumnRow) :
    items.foldl applyColEntry rows = rows.map (fun r => items.foldl applyColEntryRow r) := by
  induction items generalizing rows with
  | nil => simp
  | cons e es ih =>
    simp only [List.foldl_cons, ih, applyColEntry, List.map_map]
    rfl

theorem applyColEntryRow_id (r : ColumnRow) (e : ColEntry) : (applyColEntryRow r e).id = r.id := by
  unfold applyColEntryRow
  split <;> rfl

theorem colRow_fold_id (items : List ColEntry) (r : ColumnRow) :
    (items.foldl applyColEntryRow r).id = r.id := by
  induction items generalizing r with
  | nil => rfl
  | cons e es ih => simp [List.foldl_cons, ih, applyColEntryRow_id]

theorem colRow_fold_untouched (items : List ColEntry) (r : ColumnRow)
    (h : ∀ e ∈ items, e.id ≠ r.id) :
    items.foldl applyColEntryRow r = r := by
  induction items with
  | nil => rfl
  | cons e es ih =>
    have he : applyColEntryRow r e = r := by
      unfold applyColEntryRow
      have : ¬ r.id = e.id := fun hr => h e (List.mem_cons_self e es) hr.symm
      simp [this]
    simp only [List.foldl_cons, he]
    exact ih (fun e' he' => h e' (List.mem_cons_of_mem e he'))

theorem colRow_fold_applied (items : List ColEntry) (e : ColEntry) (r : ColumnRow)
    (hnodup : (items.map ColEntry.id).Nodup) (hmem : e ∈ items) (hid : r.id = e.id) :
    items.foldl applyColEntryRow r = { r with order_index := e.order_index } := by
  induction items generalizing r with
  | nil => cases hmem
  | cons x xs ih =>
    have hn := hnodup
    simp only [List.map_cons, List.nodup_cons, List.mem_map, not_exists, not_and] at hn
    rcases List.mem_cons.mp hmem with rfl | hmem'
    · have hx : applyColEntryRow r e = { r with order_index := e.order_index } := by
        unfold applyColEntryRow
        simp [hid]
      simp only [List.foldl_cons, hx]
      refine colRow_fold_untouched xs _ ?_
      intro e' he' hcontra
      have h1 : e'.id = e.id := by simpa [hid] using hcontra
      exact hn.1 e' he' h1
    · have hx : applyColEntryRow r x = r := by
        unfold applyColEntryRow
        have hne : ¬ r.id = x.id := by
          intro hr
          exact hn.1 e hmem' (hid ▸ hr)
        simp [hne]
      simp only [List.foldl_cons, hx]
      exact ih r hn.2 hmem' hid

/-- Claim C4: a task or column reorder batch containing an entry whose id
matches no row still succeeds; that entry updates zero rows (applying it to
any row set free of its id is the identity, no row with that id ever
appears), and every other entry is applied: each row matching a batch entry
ends with that entry's order_index (and, for tasks, column_id).  Stated for
both `POST /api/tasks/reorder` and `POST /api/columns/reorder`. -/
theorem c4_soft_fail_batch (rows : List TaskRow) (items : List TaskEntry) (e0 : TaskEntry)
    (crows : List ColumnRow) (citems : List ColEntry) (ce0 : ColEntry)
    (hmem : e0 ∈ items) (hmiss : ∀ r ∈ rows, r.id ≠ e0.id)
    (hnodup : (items.map TaskEntry.id).Nodup)
    (chmem : ce0 ∈ citems) (chmiss : ∀ r ∈ crows, r.id ≠ ce0.id)
    (chnodup : (citems.map ColEntry.id).Nodup) :
    ((tasksReorder rows (some items)).1 = .success
      ∧ (∀ rs : List TaskRow, (∀ r ∈ rs, r.id ≠ e0.id) → applyTaskEntry rs e0 = rs)
      ∧ ((tasksReorder rows (some items)).2).map TaskRow.id = rows.map TaskRow.id
      ∧ (∀ r ∈ (tasksReorder rows (some items)).2, r.id ≠ e0.id)
      ∧ applyTaskEntry (tasksReorder rows (some items)).2 e0 = (tasksReorder rows (some items)).2
      ∧ (∀ e ∈ items, ∀ r ∈ rows, r.id = e.id →
          { r with order_index := e.order_index, column_id := e.column_id }
            ∈ (tasksReorder rows (some items)).2))
    ∧ ((columnsReorder crows (some citems)).1 = .success
      ∧ (∀ rs : List ColumnRow, (∀ r ∈ rs, r.id ≠ ce0.id) → applyColEntry rs ce0 = rs)
      ∧ ((columnsReorder crows (some citems)).2).map ColumnRow.id = crows.map ColumnRow.id
      ∧ (∀ r ∈ (columnsReorder crows (some citems)).2, r.id ≠ ce0.id)
      ∧ applyColEntry (columnsReorder crows (some citems)).2 ce0
          = (columnsReorder crows (some citems)).2
      ∧ (∀ e ∈ citems, ∀ r ∈ crows, r.id = e.id →
          { r with order_index := e.order_index }
            ∈ (columnsReorder crows (some citems)).2)) := by
  constructor
  · have hid_noop : ∀ rs : List TaskRow, (∀ r ∈ rs, r.id ≠ e0.id) →
        applyTaskEntry rs e0 = rs := by
      intro rs hrs
      unfold applyTaskEntry
      refine map_eq_self_of rs _ ?_
      intro r hr
      unfold applyEntryRow
      simp [hrs r hr]
    have hids : ((tasksReorder rows (some items)).2).map TaskRow.id = rows.map TaskRow.id := by
      simp only [tasksReorder, foldl_applyTaskEntry_pointwise, List.map_map]
      refine List.map_congr_left ?_
      intro r _
      exact row_fold_id items r
    have hnot : ∀ r ∈ (tasksReorder rows (some items)).2, r.id ≠ e0.id := by
      intro r hr
      have : r.id ∈ ((tasksReorder rows (some items)).2).map TaskRow.id :=
        List.mem_map_of_mem TaskRow.id hr
      rw [hids] at this
      rcases List.mem_map.mp this with ⟨r', hr', hr'id⟩
      rw [← hr'id]
      exact hmiss r' hr'
    refine ⟨rfl, hid_noop, hids, hnot, hid_noop _ hnot, ?_⟩
    intro e he r hr hid
    simp only [tasksReorder, foldl_applyTaskEntry_pointwise]
    rw [← row_fold_applied items e r hnodup he hid]
    exact List.mem_map_of_mem _ hr
  · have hid_noop : ∀ rs : List ColumnRow, (∀ r ∈ rs, r.id ≠ ce0.id) →
        applyColEntry rs ce0 = rs := by
      intro rs hrs
      unfold applyColEntry
      refine map_eq_self_of rs _ ?_
      intro r hr
      unfold applyColEntryRow
      simp [hrs r hr]
    have hids : ((columnsReorder crows (some citems)).2).map ColumnRow.id
        = crows.map ColumnRow.id := by
      simp only [columnsReorder, foldl_applyColEntry_pointwise, List.map_map]
      refine List.map_congr_left ?_
      intro r _
      exact colRow_fold_id citems r
    have hnot : ∀ r ∈ (columnsReorder crows (some citems)).2, r.id ≠ ce0.id := by
      intro r hr
      have : r.id ∈ ((columnsReorder crows (some citems)).2).map ColumnRow.id :=
        List.mem_map_of_mem ColumnRow.id hr
      rw [hids] at this
      rcases List.mem_map.mp this with ⟨r', hr', hr'id⟩
      rw [← hr'id]
      exact chmiss r' hr'
    refine ⟨rfl, hid_noop, hids, hnot, hid_noop _ hnot, ?_⟩
    intro e he r hr hid
    simp only [columnsReorder, foldl_applyColEntry_pointwise]
    rw [← colRow_fold_applied citems e r chnodup he hid]
    exact List.mem_map_of_mem _ hr

/-- Witness for claim C4: task rows {1, 2} with batch
[{1, idx 0}, {99, idx 1}, {2, idx 2}] and column rows {1, 2} with batch
[{1, idx 0}, {99, idx 1}, {2, idx 2}], 99 nonexistent in both stores: both
responses are success and the valid entries are applied (indices 0 and 2)
while no row 99 appears. -/
theorem c4_soft_fail_batch_witness :
    ((⟨99, 40, 1⟩ : TaskEntry) ∈ exItems ∧ (∀ r ∈ exRows, r.id ≠ 99)
      ∧ (exItems.map TaskEntry.id).Nodup
      ∧ (⟨99, 1⟩ : ColEntry) ∈ exColItems ∧ (∀ r ∈ exColRows, r.id ≠ 99)
      ∧ (exColItems.map ColEntry.id).Nodup)
    ∧ (tasksReorder exRows (some exItems)).1 = Resp.success
    ∧ (columnsReorder exColRows (some exColItems)).1 = Resp.success
    ∧ (tasksReorder exRows (some exItems)).2
        = [⟨1, "a", "", 40, some 3, 0, 0⟩, ⟨2, "b", "", 40, some 3, 2, 0⟩]
    ∧ (columnsReorder exColRows (some exColItems)).2
        = [⟨1, "a", 0, 7, "#f59e0b"⟩, ⟨2, "b", 2, 7, "#f59e0b"⟩] :=
  ⟨⟨by decide, by decide, by decide, by decide, by decide, by decide⟩,
    (c4_soft_fail_batch exRows exItems ⟨99, 40, 1⟩ exColRows exColItems ⟨99, 1⟩
      (by decide) (by decide) (by decide) (by decide) (by decide) (by decide)).1.1,
    (c4_soft_fail_batch exRows exItems ⟨99, 40, 1⟩ exColRows exColItems ⟨99, 1⟩
      (by decide) (by decide) (by decide) (by decide) (by decide) (by decide)).2.1,
    by decide, by decide⟩

/-- Claim C5: every batch reorder request (tasks or columns) is
all-or-nothing — the route either commits the full fold of all per-entry
updates with a success response, or (when some entry's update raises) rolls
back to the exact pre-request store with an error response, so no state
reflecting a strict subset of the batch is ever observable.  The infallible
instantiations coincide with the plain route models, and the concrete
mid-batch failure (second of three entries raises after the first already
updated a row) leaves the store untouched. -/
theorem c5_atomic_batch (step : List TaskRow → TaskEntry → Except String (List TaskRow))
    (cstep : List ColumnRow → ColEntry → Except String (List ColumnRow))
    (rows : List TaskRow) (items : List TaskEntry)
    (crows : List ColumnRow) (citems : List ColEntry) :
    ((∃ rows', items.foldlM step rows = .ok rows'
        ∧ reorderTx step rows items = (.success, rows'))
      ∨ (∃ e, items.foldlM step rows = .error e
        ∧ reorderTx step rows items = (.error e, rows)))
    ∧ ((∃ crows', citems.foldlM cstep crows = .ok crows'
        ∧ reorderTx cstep crows citems = (.success, crows'))
      ∨ (∃ e, citems.foldlM cstep crows = .error e
        ∧ reorderTx cstep crows citems = (.error e, crows)))
    ∧ tasksReorder rows (some items)
        = reorderTx (fun rs e => .ok (applyTaskEntry rs e)) rows items
    ∧ columnsReorder crows (some citems)
        = reorderTx (fun rs e => .ok (applyColEntry rs e)) crows citems
    ∧ reorderTx exFailStep exRows exItems = (.error "boom", exRows) := by
  refine ⟨?_, ?_, ?_, ?_, by decide⟩
  · cases h : items.foldlM step rows with
    | ok rows' => exact .inl ⟨rows', rfl, by simp [reorderTx, h]⟩
    | error e => exact .inr ⟨e, rfl, by simp [reorderTx, h]⟩
  · cases h : citems.foldlM cstep crows with
    | ok crows' => exact .inl ⟨crows', rfl, by simp [reorderTx, h]⟩
    | error e => exact .inr ⟨e, rfl, by simp [reorderTx, h]⟩
  · simp [tasksReorder, reorderTx, foldlM_ok]
  · simp [columnsReorder, reorderTx, foldlM_ok]

/-- Counterexample to claim C6: a user whose only project carries
`order_index = 5` (N = 1 sibling) gets `order_index = 6` for the next
created project, not N = 1 — project creation uses `MAX(order_index) + 1`,
not the sibling count. -/
theorem c6_append_counterexample :
    (createProject exProjRows [] 1 "q" none 7).1 = Resp.success
    ∧ ((createProject exProjRows [] 1 "q" none 7).2.1).map ProjectRow.order_index = [5, 6]
    ∧ (exProjRows.filter (fun r => r.user_id == 1)).length = 1
    ∧ (6 : Int) ≠ 1 := by
  decide

/-- Claim C6 (amended): creating a Task or a Column in a container with N
existing siblings assigns the new entity `order_index = N` (the sibling
count, append to end); creating a Project assigns
`order_index = MAX(existing order_index) + 1` (0 when the user has none),
which equals the count only when the existing indices are dense from 0.  In
every case the store is extended by appending, so no existing sibling row is
altered. -/
theorem c6_append_invariant (trows : List TaskRow) (req : TaskCreateReq) (cid now : Nat)
    (htitle : req.title ≠ "") (hcid : req.column_id = some cid)
    (hprio : priorityCheckOk (priorityValue req.priority) = true)
    (crows : List ColumnRow) (ctitle : String) (pid : Nat) (color : Option String)
    (hct : ctitle ≠ "")
    (prows : List ProjectRow) (pcols : List ColumnRow) (userId : Nat) (pname : String)
    (pdesc : Option String) (pnow : Nat) (hpn : pname ≠ "") :
    (∃ t, (createTask trows req now).2 = trows ++ [t]
      ∧ t.order_index = ((trows.filter (fun r => r.column_id == cid)).length : Int)
      ∧ (createTask trows req now).1 = .success)
    ∧ (∃ cR, (createColumn crows ctitle (some pid) color).2 = crows ++ [cR]
      ∧ cR.order_index = ((crows.filter (fun r => r.project_id == pid)).length : Int)
      ∧ (createColumn crows ctitle (some pid) color).1 = .success)
    ∧ (∃ p, (createProject prows pcols userId pname pdesc pnow).2.1 = prows ++ [p]
      ∧ p.order_index = projectNextOrder prows userId
      ∧ (createProject prows pcols userId pname pdesc pnow).1 = .success) := by
  refine ⟨?_, ?_, ?_⟩
  · have h1 : createTask trows req now
        = (.success, trows ++ [⟨nextRowId (trows.map (fun r => r.id)), req.title,
            req.description.getD "", cid, priorityValue req.priority,
            ((trows.filter (fun r => r.column_id == cid)).length : Int), now⟩]) := by
      simp [createTask, hcid, htitle, hprio]
    exact ⟨_, by rw [h1], rfl, by rw [h1]⟩
  · have h1 : createColumn crows ctitle (some pid) color
        = (.success, crows ++ [⟨nextRowId (crows.map (fun r => r.id)), ctitle,
            ((crows.filter (fun r => r.project_id == pid)).length : Int), pid,
            color.getD "#f59e0b"⟩]) := by
      simp [createColumn, hct]
    exact ⟨_, by rw [h1], rfl, by rw [h1]⟩
  · have h1 : (createProject prows pcols userId pname pdesc pnow).2.1
        = prows ++ [⟨nextRowId (prows.map (fun r => r.id)), pname, pdesc.getD "", userId,
            projectNextOrder prows userId, pnow⟩] := by
      simp [createProject, hpn]
    have h2 : (createProject prows pcols userId pname pdesc pnow).1 = .success := by
      simp [createProject, hpn]
    exact ⟨_, h1, rfl, h2⟩

/-- Witness for claim C6 (amended): a task created in a column that already
holds two tasks (the C4 fixture rows, both in column 40) is appended with
`order_index = 2`. -/
theorem c6_append_invariant_witness :
    (("t" : String) ≠ "" ∧ (some 40 : Option Nat) = some 40
      ∧ priorityCheckOk (priorityValue .absent) = true ∧ ("c" : String) ≠ ""
      ∧ ("p" : String) ≠ "")
    ∧ (∃ t, (createTask exRows ⟨"t", none, some 40, .absent⟩ 9).2 = exRows ++ [t]
      ∧ t.order_index = ((exRows.filter (fun r => r.column_id == 40)).length : Int)
      ∧ (createTask exRows ⟨"t", none, some 40, .absent⟩ 9).1 = .success) :=
  ⟨⟨by decide, rfl, by decide, by decide, by decide⟩,
    (c6_append_invariant exRows ⟨"t", none, some 40, .absent⟩ 40 9 (by decide) rfl (by decide)
      [] "c" 1 none (by decide) exProjRows [] 1 "p" none 0 (by decide)).1⟩

/-- Counterexample to claim C7: the task list endpoint orders ties on
`order_index` by `created_at` DESCENDING — two tasks tied at index 0 with
creation times 10 and 20 come back later-first. -/
theorem c7_tie_order_counterexample :
    listTasks exTieRows [] none
      = [⟨2, "b", "", 1, some 3, 0, 20⟩, ⟨1, "a", "", 1, some 3, 0, 10⟩]
    ∧ (10 : Nat) < 20 := by
  decide

theorem taskRowLe_trans (a b c : TaskRow) (h1 : taskRowLe a b = true)
    (h2 : taskRowLe b c = true) : taskRowLe a c = true := by
  simp only [taskRowLe, Bool.or_eq_true, Bool.and_eq_true, decide_eq_true_eq, beq_iff_eq] at *
  omega

theorem taskRowLe_total (a b : TaskRow) : taskRowLe a b = true ∨ taskRowLe b a = true := by
  simp only [taskRowLe, Bool.or_eq_true, Bool.and_eq_true, decide_eq_true_eq, beq_iff_eq]
  omega

theorem projRowLe_trans (a b c : ProjectRow) (h1 : projRowLe a b = true)
    (h2 : projRowLe b c = true) : projRowLe a c = true := by
  simp only [projRowLe, Bool.or_eq_true, Bool.and_eq_true, decide_eq_true_eq, beq_iff_eq] at *
  omega

theorem projRowLe_total (a b : ProjectRow) : projRowLe a b = true ∨ projRowLe b a = true := by
  simp only [projRowLe, Bool.or_eq_true, Bool.and_eq_true, decide_eq_true_eq, beq_iff_eq]
  omega

theorem colRowLe_trans (a b c : ColumnRow) (h1 : colRowLe a b = true)
    (h2 : colRowLe b c = true) : colRowLe a c = true := by
  simp only [colRowLe, decide_eq_true_eq] at *
  omega

theorem colRowLe_total (a b : ColumnRow) : colRowLe a b = true ∨ colRowLe b a = true := by
  simp only [colRowLe, decide_eq_true_eq]
  omega

/-- Claim C7 (amended): every listing endpoint returns rows sorted by
`order_index` ascending; the projects endpoint breaks ties by `created_at`
ascending, but the tasks endpoint breaks ties by `created_at` DESCENDING,
and the columns endpoint orders by `order_index` alone (no tie-breaker). -/
theorem c7_list_ordering (trows : List TaskRow) (cols : List ColumnRow) (pidT : Option Nat)
    (prows : List ProjectRow) (userId : Nat) (crows : List ColumnRow) (pidC : Nat) :
    (listTasks trows cols pidT).Pairwise (fun a b => taskRowLe a b = true)
    ∧ (listProjects prows userId).Pairwise (fun a b => projRowLe a b = true)
    ∧ (listColumns crows pidC).Pairwise (fun a b => colRowLe a b = true) := by
  refine ⟨?_, ?_, ?_⟩
  · unfold listTasks
    exact pairwise_sortBy taskRowLe taskRowLe_trans taskRowLe_total _
  · unfold listProjects
    exact pairwise_sortBy projRowLe projRowLe_trans projRowLe_total _
  · unfold listColumns
    exact pairwise_sortBy colRowLe colRowLe_trans colRowLe_total _

/-- Claim C8: a single-field task update through the cache captures the
previous task list, applies the optimistic merge, and on a failed response
or a thrown fetch restores exactly the captured list while recording the
error; on success the optimistic merge is kept.  Concretely, updating task
7's priority from 3 to 5 against a failing persistence layer leaves the
cached priority at 3 with the error recorded. -/
theorem c8_rollback_on_failed_update (st : ClientState) (id : Nat) (u : TaskUpdates)
    (e m : String) :
    ((updateTask st id u (.fail e)).tasks = st.tasks
      ∧ (updateTask st id u (.fail e)).error = some e)
    ∧ ((updateTask st id u (.threw m)).tasks = st.tasks
      ∧ (updateTask st id u (.threw m)).error = some m)
    ∧ (updateTask st id u .ok).tasks
        = st.tasks.map (fun t => if t.id == id then applyTaskUpdates t u else t)
    ∧ ((updateTask exClientState 7 ⟨none, none, none, some 5, none⟩ (.fail "boom")).tasks.find?
        (fun t => t.id == 7)).map Task.priority = some 3
    ∧ (updateTask exClientState 7 ⟨none, none, none, some 5, none⟩ (.fail "boom")).error
        = some "boom"
    ∧ ((updateTask exClientState 7 ⟨none, none, none, some 5, none⟩ .ok).tasks.find?
        (fun t => t.id == 7)).map Task.priority = some 5 := by
  exact ⟨⟨rfl, rfl⟩, ⟨rfl, rfl⟩, rfl, by decide, by decide, by decide⟩

/-- Counterexample to claim C9: a task-creation request with an explicit
JSON `null` priority survives the destructuring default (`priority = 3`
applies only to `undefined`), passes the CHECK constraint (NULL satisfies a
SQL CHECK), and stores a task whose priority is NULL — not an integer in
1–5. -/
theorem c9_priority_counterexample :
    createTask [] ⟨"t", none, some 7, .null⟩ 0
      = (.success, [⟨1, "t", "", 7, none, 0, 0⟩])
    ∧ (⟨1, "t", "", 7, none, 0, 0⟩ : TaskRow).priority = none := by
  decide

/-- Claim C9 (amended): when the request omits priority the created task's
priority is 3; a supplied numeric priority is stored iff it lies in 1–5 and
otherwise the CHECK constraint rejects the insert with no row stored; an
explicit `null` priority is stored as NULL (the CHECK passes on NULL). -/
theorem c9_priority_range (rows : List TaskRow) (req : TaskCreateReq) (cid now : Nat)
    (htitle : req.title ≠ "") (hcid : req.column_id = some cid) :
    (req.priority = .absent →
      ∃ t, createTask rows req now = (.success, rows ++ [t]) ∧ t.priority = some 3)
    ∧ (∀ n, req.priority = .num n → 1 ≤ n → n ≤ 5 →
      ∃ t, createTask rows req now = (.success, rows ++ [t]) ∧ t.priority = some n)
    ∧ (∀ n, req.priority = .num n → (n < 1 ∨ 5 < n) →
      createTask rows req now = (.error "CHECK constraint failed: priority", rows))
    ∧ (req.priority = .null →
      ∃ t, createTask rows req now = (.success, rows ++ [t]) ∧ t.priority = none) := by
  refine ⟨?_, ?_, ?_, ?_⟩
  · intro hp
    refine ⟨⟨nextRowId (rows.map (fun r => r.id)), req.title, req.description.getD "", cid,
      some 3, ((rows.filter (fun r => r.column_id == cid)).length : Int), now⟩, ?_, rfl⟩
    simp [createTask, hcid, htitle, hp, priorityValue, priorityCheckOk]
  · intro n hp h1 h5
    refine ⟨⟨nextRowId (rows.map (fun r => r.id)), req.title, req.description.getD "", cid,
      some n, ((rows.filter (fun r => r.column_id == cid)).length : Int), now⟩, ?_, rfl⟩
    have hok : priorityCheckOk (some n) = true := by
      simp only [priorityCheckOk, Bool.and_eq_true, decide_eq_true_eq]
      omega
    simp [createTask, hcid, htitle, hok, hp, priorityValue]
  · intro n hp hout
    have hbad : priorityCheckOk (some n) = false := by
      cases hd1 : decide (1 ≤ n) with
      | false => simp [priorityCheckOk, hd1]
      | true =>
        have hd2 : decide (n ≤ 5) = false := by
          simp only [decide_eq_true_eq] at hd1
          simp only [decide_eq_false_iff_not]
          omega
        simp [priorityCheckOk, hd2]
    simp [createTask, hcid, htitle, hbad, hp, priorityValue]
  · intro hp
    refine ⟨⟨nextRowId (rows.map (fun r => r.id)), req.title, req.description.getD "", cid,
      none, ((rows.filter (fun r => r.column_id == cid)).length : Int), now⟩, ?_, rfl⟩
    simp [createTask, hcid, htitle, hp, priorityValue, priorityCheckOk]

/-- Witness for claim C9 (amended): with a nonempty title and column 40, an
omitted priority stores 3. -/
theorem c9_priority_range_witness :
    (("t" : String) ≠ "" ∧ (some 40 : Option Nat) = some 40)
    ∧ ((⟨"t", none, some 40, .absent⟩ : TaskCreateReq).priority = .absent →
      ∃ t, createTask exRows ⟨"t", none, some 40, .absent⟩ 9 = (.success, exRows ++ [t])
        ∧ t.priority = some 3) :=
  ⟨⟨by decide, rfl⟩,
    (c9_priority_range exRows ⟨"t", none, some 40, .absent⟩ 40 9 (by decide) rfl).1⟩

theorem lookupAttachments_cons_pos (p : Nat × List Attachment)
    (ps : List (Nat × List Attachment)) (k : Nat) (h : (p.1 == k) = true) :
    lookupAttachments (p :: ps) k = p.2 := by
  unfold lookupAttachments
  rw [List.find?_cons_of_pos ps h]

theorem lookupAttachments_cons_neg (p : Nat × List Attachment)
    (ps : List (Nat × List Attachment)) (k : Nat) (h : (p.1 == k) = false) :
    lookupAttachments (p :: ps) k = lookupAttachments ps k := by
  unfold lookupAttachments
  rw [List.find?_cons_of_neg ps (by simp [h])]

theorem lookup_set_present (m : List (Nat × List Attachment)) (k : Nat) (v : List Attachment)
    (h : m.any (fun p => p.1 == k) = true) :
    lookupAttachments (m.map (fun p => if p.1 == k then (p.1, v) else p)) k = v := by
  induction m with
  | nil => cases h
  | cons p ps ih =>
    simp only [List.map_cons]
    cases hkb : (p.1 == k) with
    | true =>
      rw [if_pos rfl, lookupAttachments_cons_pos (p.1, v) _ _ hkb]
    | false =>
      have h' : ps.any (fun p => p.1 == k) = true := by
        have := h
        simp only [List.any_cons, hkb, Bool.false_or] at this
        exact this
      rw [if_neg (by simp), lookupAttachments_cons_neg _ _ _ hkb]
      exact ih h'

theorem lookup_append_missing (m : List (Nat × List Attachment)) (k : Nat) (v : List Attachment)
    (h : m.any (fun p => p.1 == k) = false) :
    lookupAttachments (m ++ [(k, v)]) k = v := by
  induction m with
  | nil => exact lookupAttachments_cons_pos _ _ _ (by simp)
  | cons p ps ih =>
    have hkb : (p.1 == k) = false := by
      have := h
      simp only [List.any_cons, Bool.or_eq_false_iff] at this
      exact this.1
    have h' : ps.any (fun p => p.1 == k) = false := by
      have := h
      simp only [List.any_cons, Bool.or_eq_false_iff] at this
      exact this.2
    rw [List.cons_append, lookupAttachments_cons_neg _ _ _ hkb]
    exact ih h'

theorem lookup_setAttachments (m : List (Nat × List Attachment)) (k : Nat)
    (v : List Attachment) : lookupAttachments (setAttachments m k v) k = v := by
  unfold setAttachments
  cases h : m.any (fun p => p.1 == k) with
  | true => simpa [h] using lookup_set_present m k v h
  | false => simpa [h] using lookup_append_missing m k v h

/-- Claim C10: the client-side attachment deletion never inspects the DELETE
response — for every resolved response, whatever its status (including a
failed or not-found server delete), the cached mutation is the same: the
attachment is removed from the task's cached list and the task's
`attachment_count` is decremented with a floor of 0. -/
theorem c10_delete_attachment_unconditional (st : ClientState) (id taskId s1 s2 : Nat) :
    deleteAttachment st id taskId (.resolved s1) = deleteAttachment st id taskId (.resolved s2)
    ∧ (∀ s, lookupAttachments (deleteAttachment st id taskId (.resolved s)).attachments taskId
        = (lookupAttachments st.attachments taskId).filter (fun a => a.id != id))
    ∧ (∀ s, ∀ t ∈ st.tasks, t.id = taskId →
        ({ t with attachment_count := some (max ((t.attachment_count.getD 0) - 1) 0) } : Task)
          ∈ (deleteAttachment st id taskId (.resolved s)).tasks)
    ∧ (∀ x : Int, 0 ≤ (max (x - 1) 0 : Int)) := by
  refine ⟨rfl, ?_, ?_, fun x => le_max_right _ _⟩
  · intro s
    exact lookup_setAttachments st.attachments taskId _
  · intro s t ht hid
    have h1 : (fun t : Task =>
        if t.id == taskId then
          { t with attachment_count := some (max ((t.attachment_count.getD 0) - 1) 0) }
        else t) t
        = { t with attachment_count := some (max ((t.attachment_count.getD 0) - 1) 0) } := by
      simp [hid]
    exact h1 ▸ List.mem_map_of_mem _ ht

/-- Witness for claim C10: task 7 of the example state has
`attachment_count = 0` and one cached attachment (id 9); the server answers
404 — the cached list still becomes empty and the count stays floored at 0. -/
theorem c10_delete_attachment_unconditional_witness :
    ((⟨7, "t", "", 5, 3, 0, "", some 0⟩ : Task) ∈ exClientState.tasks
      ∧ (⟨7, "t", "", 5, 3, 0, "", some 0⟩ : Task).id = 7)
    ∧ ((⟨7, "t", "", 5, 3, 0, "", some 0⟩ : Task)
        ∈ (deleteAttachment exClientState 9 7 (.resolved 404)).tasks)
    ∧ lookupAttachments (deleteAttachment exClientState 9 7 (.resolved 404)).attachments 7
        = [] :=
  ⟨⟨by decide, by decide⟩,
    by
      have h := (c10_delete_attachment_unconditional exClientState 9 7 404 404).2.2.1 404
        ⟨7, "t", "", 5, 3, 0, "", some 0⟩ (by decide) (by decide)
      simpa using h,
    by decide⟩

end Kanban
